import Mathlib

/-!
Shallow embedding of `src/cc.c` ("cc - cat replacement, version 1.1").

Bytes are modelled as `Nat` (the C code reads `unsigned char`), byte
strings as `List Nat`, and the per-run line counter (C `int line_no`)
as `Nat` (it starts at 1 and only ever increments).  File contents are
given directly as byte lists; the operating-system side (open/stat) is
modelled by an environment `String → Option (List Nat)` mapping a file
name to its content, `none` meaning the file cannot be opened.
Standard-error output is modelled as a `List String` of logged messages.
-/

namespace CC

/-- Buffer size for I/O (`#define BUFSIZE 8192`). -/
def BUFSIZE : Nat := 8192

/-- 1MB threshold for memory mapping (`#define MMAP_THRESHOLD (1024 * 1024)`). -/
def MMAP_THRESHOLD : Int := 1024 * 1024

/-- The `Options` structure of `cc.c`.  The C field `line_format` is the
constant string `"%6d\t"`; its effect (printf `%6d` followed by a tab) is
embedded as the function `formatLineNo` below, so the struct keeps only
the data fields. -/
structure Options where
  flag_num : Bool
  flag_nnb : Bool
  flag_squeeze : Bool
  flag_ends : Bool
  flag_tabs : Bool
  flag_nonprinting : Bool
  flag_follow : Bool
  squeeze_limit : Nat
  tab_repr : List Nat
  end_marker : List Nat
  deriving DecidableEq, Repr

/-- `global_defaults` from `cc.c`: all flags off, `squeeze_limit = 1`,
`tab_repr = "^I"` (bytes 94 73), `end_marker = "$"` (byte 36). -/
def global_defaults : Options :=
  { flag_num := false, flag_nnb := false, flag_squeeze := false,
    flag_ends := false, flag_tabs := false, flag_nonprinting := false,
    flag_follow := false, squeeze_limit := 1,
    tab_repr := [94, 73], end_marker := [36] }

/-- `is_blank = (len == 1 && line[0] == '\n')`: a line is blank iff it is
exactly the single byte `'\n'` (10). -/
def isBlankLine (line : List Nat) : Bool :=
  match line with
  | [10] => true
  | _ => false

/-- Decimal digit bytes (ASCII) of a natural number, most significant
first; the digit production underlying printf `%d`. -/
def decimalDigits (n : Nat) : List Nat :=
  if h : n < 10 then [48 + n]
  else decimalDigits (n / 10) ++ [48 + n % 10]
  termination_by n
  decreasing_by
    exact Nat.div_lt_self (Nat.lt_of_lt_of_le (by norm_num) (Nat.le_of_not_lt h)) (by norm_num)

/-- Numeric value of a list of ASCII decimal digit bytes. -/
def digitsVal (ds : List Nat) : Nat :=
  ds.foldl (fun acc d => 10 * acc + (d - 48)) 0

/-- Embedding of `printf("%6d\t", line_no)`: the decimal representation,
right-justified with spaces (byte 32) to a minimum field width of 6,
followed by a tab (byte 9). -/
def formatLineNo (n : Nat) : List Nat :=
  List.replicate (6 - (decimalDigits n).length) 32 ++ decimalDigits n ++ [9]

/-- The per-byte emission of the slow path of `process_line_buffer`
(`cc.c` lines 139-154): checks in order are tab, newline, nonprinting,
literal passthrough.  `"^?"` is bytes 94 63. -/
def renderByte (opts : Options) (c : Nat) : List Nat :=
  if c = 9 ∧ opts.flag_tabs = true then opts.tab_repr
  else if c = 10 then (if opts.flag_ends = true then opts.end_marker else []) ++ [10]
  else if opts.flag_nonprinting = true ∧ (c < 32 ∨ c = 127) then
    (if c = 127 then [94, 63] else [94, c + 64])
  else [c]

/-- `process_line_buffer` (`cc.c` lines 129-155): optional line number,
then either the verbatim fast path (no transform flag set) or the
byte-by-byte slow path.  Returns the emitted bytes and the new counter. -/
def process_line_buffer (line : List Nat) (opts : Options) (line_no : Nat) :
    List Nat × Nat :=
  let is_blank := isBlankLine line
  let numbered := opts.flag_num || (opts.flag_nnb && !is_blank)
  let numOut := if numbered = true then formatLineNo line_no else []
  let line_no' := if numbered = true then line_no + 1 else line_no
  let body :=
    if (!opts.flag_tabs && !opts.flag_nonprinting && !opts.flag_ends) = true then line
    else (line.map (renderByte opts)).flatten
  (numOut ++ body, line_no')

/-- Line splitting of the memory-mapped reader (`cc.c` lines 259-264):
scan for `'\n'`, each line includes its terminating newline; a final
fragment without a newline is also a line.  `cur` is the portion of the
current line scanned so far. -/
def splitLinesMmapGo (cur : List Nat) : List Nat → List (List Nat)
  | [] => if cur = [] then [] else [cur]
  | b :: bs =>
    if b = 10 then (cur ++ [10]) :: splitLinesMmapGo [] bs
    else splitLinesMmapGo (cur ++ [b]) bs

/-- Lines of a byte string as seen by the memory-mapped reader. -/
def splitLinesMmap (bs : List Nat) : List (List Nat) :=
  splitLinesMmapGo [] bs

/-- Chunking performed by `fgets(buf, BUFSIZE, f)`: a chunk ends at a
newline (included) or when it reaches `BUFSIZE - 1` bytes, whichever
comes first. -/
def fgetsSplitGo (cur : List Nat) : List Nat → List (List Nat)
  | [] => if cur = [] then [] else [cur]
  | b :: bs =>
    if b = 10 then (cur ++ [10]) :: fgetsSplitGo [] bs
    else if cur.length + 1 = BUFSIZE - 1 then (cur ++ [b]) :: fgetsSplitGo [] bs
    else fgetsSplitGo (cur ++ [b]) bs

/-- The chunks `fgets` produces from a byte string. -/
def fgetsSplit (bs : List Nat) : List (List Nat) :=
  fgetsSplitGo [] bs

/-- The chunks the stream/follow readers actually process: `cc.c` measures
each `fgets` chunk with `strlen(buf)`, so a chunk is truncated at its
first NUL byte (bytes after a NUL inside a chunk are consumed but never
processed). -/
def fgetsChunks (bs : List Nat) : List (List Nat) :=
  (fgetsSplit bs).map (fun c => c.takeWhile (fun b => b != 0))

/-- Loop body of `process_text` (`cc.c` lines 165-175): squeeze filtering
with the per-file `blank_count`, then `process_line_buffer`.  Mirrors
`if (is_blank && ++blank_count > limit) continue; else if (!is_blank)
blank_count = 0;`. -/
def process_text_go (opts : Options) : Nat → Nat → List (List Nat) → List Nat × Nat
  | n, _, [] => ([], n)
  | n, bc, chunk :: rest =>
    if opts.flag_squeeze = true ∧ isBlankLine chunk = true ∧ opts.squeeze_limit < bc + 1 then
      process_text_go opts n (bc + 1) rest
    else
      let bc' := if opts.flag_squeeze = true then
        (if isBlankLine chunk = true then bc + 1 else 0) else bc
      let r := process_line_buffer chunk opts n
      let rest' := process_text_go opts r.2 bc' rest
      (r.1 ++ rest'.1, rest'.2)

/-- `process_text` (`cc.c` lines 160-180): stream reader in text mode on a
file's full content, starting with `blank_count = 0`. -/
def process_text (content : List Nat) (opts : Options) (line_no : Nat) :
    List Nat × Nat :=
  process_text_go opts line_no 0 (fgetsChunks content)

/-- `process_binary` (`cc.c` lines 185-200): `fread`/`fwrite` copy in
`BUFSIZE` chunks. -/
def process_binary (bs : List Nat) : List Nat :=
  if h : bs = [] then []
  else bs.take BUFSIZE ++ process_binary (bs.drop BUFSIZE)
  termination_by bs.length
  decreasing_by
    simp only [List.length_drop, BUFSIZE]
    have : 0 < bs.length := List.length_pos.mpr h
    omega

/-- Loop body of the text mode of `process_file_mmap` (`cc.c` lines
258-272): mirrors `if (flag_squeeze && blank) { if (++blank_count >
limit) continue; } else { blank_count = 0; }` followed by
`process_line_buffer`. -/
def process_mmap_go (opts : Options) : Nat → Nat → List (List Nat) → List Nat × Nat
  | n, _, [] => ([], n)
  | n, bc, line :: rest =>
    if opts.flag_squeeze = true ∧ isBlankLine line = true then
      (if opts.squeeze_limit < bc + 1 then process_mmap_go opts n (bc + 1) rest
       else
         let r := process_line_buffer line opts n
         let rest' := process_mmap_go opts r.2 (bc + 1) rest
         (r.1 ++ rest'.1, rest'.2))
    else
      let r := process_line_buffer line opts n
      let rest' := process_mmap_go opts r.2 0 rest
      (r.1 ++ rest'.1, rest'.2)

/-- `process_file_mmap` (`cc.c` lines 245-278): empty files produce no
output (the `st_size == 0` early return); binary mode writes the whole
view; text mode runs the line loop with a fresh `blank_count`. -/
def process_file_mmap (content : List Nat) (text_mode : Bool) (opts : Options)
    (line_no : Nat) : List Nat × Nat :=
  if content = [] then ([], line_no)
  else if text_mode = false then (content, line_no)
  else process_mmap_go opts line_no 0 (splitLinesMmap content)

/-- Drain loop of `process_follow_text` (`cc.c` lines 325-329): each
`fgets` chunk of the newly appended region goes straight to
`process_line_buffer`; there is no squeeze filtering in follow mode. -/
def process_follow_go (opts : Options) : Nat → List (List Nat) → List Nat × Nat
  | n, [] => ([], n)
  | n, chunk :: rest =>
    let r := process_line_buffer chunk opts n
    let rest' := process_follow_go opts r.2 rest
    (r.1 ++ rest'.1, rest'.2)

/-- `process_follow_text` (`cc.c` lines 296-340) restricted to one drain
cycle: the bytes appended past the recorded offset are read with `fgets`
(hence `strlen`-measured chunks) and transformed.  The poll/sleep/signal
machinery and the offset bookkeeping produce no output of their own. -/
def process_follow_text (appended : List Nat) (opts : Options) (line_no : Nat) :
    List Nat × Nat :=
  process_follow_go opts line_no (fgetsChunks appended)

/-- The three reading strategies of the engine. -/
inductive Reader where
  | followReader
  | mappedReader
  | streamReader
  deriving DecidableEq, Repr

/-- `get_file_size` (`cc.c` lines 115-123): the file's byte count, or -1
when the file cannot be opened. -/
def get_file_size (env : String → Option (List Nat)) (fname : String) : Int :=
  match env fname with
  | none => -1
  | some c => (c.length : Int)

/-- `use_text` (`cc.c` lines 411-412): any transform/numbering/squeeze
flag routes processing into text mode. -/
def use_text (opts : Options) : Bool :=
  opts.flag_num || opts.flag_nnb || opts.flag_squeeze ||
  opts.flag_ends || opts.flag_tabs || opts.flag_nonprinting

/-- The per-file dispatch of `main` (`cc.c` lines 414-428): follow mode on
a named file wins; otherwise a named file of size at least
`MMAP_THRESHOLD` is memory-mapped (`strcmp(fname, "-") &&
get_file_size(fname) >= MMAP_THRESHOLD`); otherwise the stream reader. -/
def chooseReader (env : String → Option (List Nat)) (opts : Options)
    (fname : String) : Reader :=
  if opts.flag_follow = true ∧ fname ≠ "-" then .followReader
  else if fname ≠ "-" ∧ get_file_size env fname ≥ MMAP_THRESHOLD then .mappedReader
  else .streamReader

/-- Processing of one input path by `main`'s loop body: dispatch to one
reader; a file that cannot be opened is logged (`log_error` with the file
name, `cc.c` lines 76-81) and abandoned.  Returns (stdout bytes, stderr
messages, new line counter).  A followed file that never grows emits
nothing (the follow loop starts at end-of-file). -/
def processOneFile (env : String → Option (List Nat)) (opts : Options)
    (fname : String) (line_no : Nat) : List Nat × List String × Nat :=
  match chooseReader env opts fname with
  | .followReader =>
    match env fname with
    | none => ([], [fname], line_no)
    | some _ => ([], [], line_no)
  | .mappedReader =>
    match env fname with
    | none => ([], [fname], line_no)
    | some c =>
      let r := process_file_mmap c (use_text opts) opts line_no
      (r.1, [], r.2)
  | .streamReader =>
    match env fname with
    | none => ([], [fname], line_no)
    | some c =>
      if use_text opts = true then
        let r := process_text c opts line_no
        (r.1, [], r.2)
      else (process_binary c, [], line_no)

/-- `main`'s file loop (`cc.c` lines 414-429): files are processed in
argument order; only the line counter is threaded from one file to the
next (each file gets a fresh `blank_count`); errors never stop the
loop. -/
def processFiles (env : String → Option (List Nat)) (opts : Options) :
    List String → Nat → List Nat × List String × Nat
  | [], n => ([], [], n)
  | f :: fs, n =>
    let r := processOneFile env opts f n
    let rest := processFiles env opts fs r.2.2
    (r.1 ++ rest.1, r.2.1 ++ rest.2.1, rest.2.2)

/-- Outcome of flag parsing that terminates the process (`-h`, `-V`,
`--help`, `--version` exit successfully; an unknown flag or option exits
with failure after printing a message). -/
inductive FlagOutcome where
  | exitSuccess
  | exitFailure (msg : String)
  deriving DecidableEq, Repr

/-- The inner `for (int j = 1; arg[j]; j++) switch (arg[j])` of
`parse_global_flags` (`cc.c` lines 359-375) over the characters of one
bundled short-flag argument. -/
def applyShortFlags (opts : Options) : List Char → Except FlagOutcome Options
  | [] => .ok opts
  | c :: cs =>
    if c = 'n' then applyShortFlags { opts with flag_num := true } cs
    else if c = 'b' then applyShortFlags { opts with flag_nnb := true } cs
    else if c = 's' then applyShortFlags { opts with flag_squeeze := true } cs
    else if c = 'e' then applyShortFlags { opts with flag_ends := true } cs
    else if c = 'T' then applyShortFlags { opts with flag_tabs := true } cs
    else if c = 'v' then applyShortFlags { opts with flag_nonprinting := true } cs
    else if c = 'A' then
      applyShortFlags
        { opts with flag_nonprinting := true, flag_tabs := true, flag_ends := true } cs
    else if c = 'f' then applyShortFlags { opts with flag_follow := true } cs
    else if c = 'h' then .error .exitSuccess
    else if c = 'V' then .error .exitSuccess
    else .error (.exitFailure ("Unknown flag: -".push c))

/-- `arg[0] == '-' && arg[1]`: the argument starts with a dash and has at
least one character after it. -/
def isFlagArg (arg : String) : Bool :=
  match arg.toList with
  | '-' :: _ :: _ => true
  | _ => false

/-- `arg[1] == '-'`: long-option shape. -/
def isLongOption (arg : String) : Bool :=
  match arg.toList with
  | '-' :: '-' :: _ => true
  | _ => false

/-- The argument loop of `parse_global_flags` (`cc.c` lines 350-380):
`--` ends flag parsing; flag arguments update the options or terminate;
everything else is collected as a file name, in order. -/
def parseArgsGo (opts : Options) (files : List String) (parsing : Bool) :
    List String → Except FlagOutcome (Options × List String)
  | [] => .ok (opts, files)
  | arg :: rest =>
    if parsing = true ∧ arg = "--" then parseArgsGo opts files false rest
    else if parsing = true ∧ isFlagArg arg = true then
      if isLongOption arg = true then
        if arg = "--help" then .error .exitSuccess
        else if arg = "--version" then .error .exitSuccess
        else .error (.exitFailure ("Unknown option: " ++ arg))
      else
        match applyShortFlags opts (arg.toList.drop 1) with
        | .error o => .error o
        | .ok opts' => parseArgsGo opts' files parsing rest
    else parseArgsGo opts (files ++ [arg]) parsing rest

/-- `parse_global_flags` (`cc.c` lines 346-385): parse all arguments
starting from the defaults; if no file argument remains, the single file
`"-"` (standard input) is used. -/
def parse_global_flags (args : List String) :
    Except FlagOutcome (Options × List String) :=
  match parseArgsGo global_defaults [] true args with
  | .error o => .error o
  | .ok (opts, files) => .ok (opts, if files = [] then ["-"] else files)

/-- Process exit status. -/
inductive ExitCode where
  | success
  | failure
  deriving DecidableEq, Repr

/-- `main` (`cc.c` lines 392-433): parse (exiting early on help/version
or on an argument error), print usage when reading an interactive
terminal with no file arguments, otherwise process every file and exit
successfully.  Result: (stdout bytes, stderr messages, exit code); the
help/version/usage texts themselves are not modelled. -/
def runMain (env : String → Option (List Nat)) (isTTY : Bool)
    (args : List String) : List Nat × List String × ExitCode :=
  match parse_global_flags args with
  | .error .exitSuccess => ([], [], .success)
  | .error (.exitFailure msg) => ([], [msg], .failure)
  | .ok (opts, files) =>
    if files = ["-"] ∧ isTTY = true then ([], [], .success)
    else
      let r := processFiles env opts files 1
      (r.1, r.2.1, .success)

/-- The squeeze filter of `process_text` in isolation: the subsequence of
chunks that reach `process_line_buffer`, with the running
`blank_count`. -/
def squeezeStream (squeeze : Bool) (limit : Nat) : Nat → List (List Nat) → List (List Nat)
  | _, [] => []
  | bc, chunk :: rest =>
    if squeeze = true ∧ isBlankLine chunk = true ∧ limit < bc + 1 then
      squeezeStream squeeze limit (bc + 1) rest
    else
      chunk :: squeezeStream squeeze limit
        (if squeeze = true then (if isBlankLine chunk = true then bc + 1 else 0) else bc) rest

/-- Transformation of a list of chunks with no squeeze filtering: each
chunk through `process_line_buffer`, threading the line counter. -/
def transformLines (opts : Options) : Nat → List (List Nat) → List Nat × Nat
  | n, [] => ([], n)
  | n, chunk :: rest =>
    let r := process_line_buffer chunk opts n
    let rest' := transformLines opts r.2 rest
    (r.1 ++ rest'.1, rest'.2)

/-- `blankRunsBounded k cur chunks = true` iff, continuing a run of `cur`
consecutive blank lines, every run of consecutive blank lines in `chunks`
has length at most `k`. -/
def blankRunsBounded (k : Nat) : Nat → List (List Nat) → Bool
  | _, [] => true
  | cur, l :: ls =>
    if isBlankLine l = true then decide (cur + 1 ≤ k) && blankRunsBounded k (cur + 1) ls
    else blankRunsBounded k 0 ls

/-- The options produced by the `-A` flag (`-v -T -e`). -/
def optsA : Options :=
  { global_defaults with flag_nonprinting := true, flag_tabs := true, flag_ends := true }

/-! ## Helper lemmas -/

theorem process_binary_eq (bs : List Nat) : process_binary bs = bs := by
  induction bs using process_binary.induct with
  | case1 => simp [process_binary]
  | case2 bs h ih =>
    rw [process_binary]
    simp only [h, dite_false]
    rw [ih, List.take_append_drop]

theorem digitsVal_append_one (ds : List Nat) (d : Nat) :
    digitsVal (ds ++ [d]) = 10 * digitsVal ds + (d - 48) := by
  simp [digitsVal, List.foldl_append]

theorem digitsVal_decimalDigits (n : Nat) : digitsVal (decimalDigits n) = n := by
  induction n using decimalDigits.induct with
  | case1 n h => simp [decimalDigits, h, digitsVal]
  | case2 n h ih =>
    rw [decimalDigits]
    simp only [h, dite_false]
    rw [digitsVal_append_one, ih]
    omega

theorem takeWhile_ne_zero_eq (l : List Nat) (h : ∀ b ∈ l, b ≠ 0) :
    l.takeWhile (fun b => b != 0) = l := by
  induction l with
  | nil => rfl
  | cons x xs ih =>
    have hx : x ≠ 0 := h x (by simp)
    simp only [List.takeWhile_cons]
    rw [if_pos (by simpa using hx)]
    rw [ih (fun b hb => h b (by simp [hb]))]

theorem splitLinesMmapGo_flatten (bs : List Nat) :
    ∀ cur, (splitLinesMmapGo cur bs).flatten = cur ++ bs := by
  induction bs with
  | nil =>
    intro cur
    by_cases h : cur = [] <;> simp [splitLinesMmapGo, h]
  | cons b bs ih =>
    intro cur
    simp only [splitLinesMmapGo]
    by_cases hb : b = 10
    · simp [hb, ih]
    · simp [hb, ih]

theorem fgetsSplitGo_flatten (bs : List Nat) :
    ∀ cur, (fgetsSplitGo cur bs).flatten = cur ++ bs := by
  induction bs with
  | nil =>
    intro cur
    by_cases h : cur = [] <;> simp [fgetsSplitGo, h]
  | cons b bs ih =>
    intro cur
    simp only [fgetsSplitGo]
    by_cases hb : b = 10
    · simp [hb, ih]
    · by_cases hl : cur.length + 1 = BUFSIZE - 1 <;> simp [hb, hl, ih]

theorem splitLinesMmapGo_head_length (bs : List Nat) :
    ∀ cur, cur ≠ [] →
      ∃ l ls, splitLinesMmapGo cur bs = l :: ls ∧ cur.length ≤ l.length := by
  induction bs with
  | nil =>
    intro cur hcur
    exact ⟨cur, [], by simp [splitLinesMmapGo, hcur], le_refl _⟩
  | cons b bs ih =>
    intro cur hcur
    simp only [splitLinesMmapGo]
    by_cases hb : b = 10
    · exact ⟨cur ++ [10], splitLinesMmapGo [] bs, by simp [hb], by simp⟩
    · obtain ⟨l, ls, heq, hlen⟩ := ih (cur ++ [b]) (by simp)
      refine ⟨l, ls, by simp [hb, heq], ?_⟩
      simp at hlen
      omega

theorem fgetsSplitGo_eq_mmap (bs : List Nat) :
    ∀ cur, cur.length + 1 ≤ BUFSIZE - 1 →
      (∀ l ∈ splitLinesMmapGo cur bs, l.length < BUFSIZE) →
      fgetsSplitGo cur bs = splitLinesMmapGo cur bs := by
  induction bs with
  | nil => intro cur _ _; rfl
  | cons b bs ih =>
    intro cur hcur hshort
    by_cases hb : b = 10
    · have htail : fgetsSplitGo [] bs = splitLinesMmapGo [] bs := by
        refine ih [] (by simp [BUFSIZE]) ?_
        intro l hl
        exact hshort l (by simp [splitLinesMmapGo, hb, hl])
      simp [fgetsSplitGo, splitLinesMmapGo, hb, htail]
    · have hmm : splitLinesMmapGo cur (b :: bs) = splitLinesMmapGo (cur ++ [b]) bs := by
        simp [splitLinesMmapGo, hb]
      by_cases hfull : cur.length + 1 = BUFSIZE - 1
      · -- the fgets buffer is full: this can only coincide with the mmap
        -- splitting when the input ends exactly here
        cases bs with
        | nil =>
          simp [fgetsSplitGo, splitLinesMmapGo, hb, hfull]
        | cons c cs =>
          exfalso
          -- the current mmap line extends past the full buffer, so it has
          -- length at least BUFSIZE, contradicting the shortness bound
          by_cases hc : c = 10
          · have hmem : (cur ++ [b] ++ [10]) ∈ splitLinesMmapGo cur (b :: c :: cs) := by
              rw [hmm]
              simp [splitLinesMmapGo, hc]
            have := hshort _ hmem
            simp [BUFSIZE] at this hfull
            omega
          · obtain ⟨l, ls, heq, hlen⟩ :=
              splitLinesMmapGo_head_length cs (cur ++ [b] ++ [c]) (by simp)
            have heq' : splitLinesMmapGo (cur ++ [b, c]) cs = l :: ls := by
              simpa using heq
            have hmem : l ∈ splitLinesMmapGo cur (b :: c :: cs) := by
              rw [hmm]
              simp [splitLinesMmapGo, hc, heq']
            have := hshort _ hmem
            simp [BUFSIZE] at this hfull hlen
            omega
      · rw [hmm]
        simp only [fgetsSplitGo, hb, if_neg hb, if_neg hfull]
        refine ih (cur ++ [b]) ?_ ?_
        · simp; omega
        · intro l hl
          exact hshort l (by rw [hmm]; exact hl)

theorem fgetsChunks_eq_splitLinesMmap (content : List Nat)
    (hz : (0 : Nat) ∉ content)
    (hshort : ∀ l ∈ splitLinesMmap content, l.length < BUFSIZE) :
    fgetsChunks content = splitLinesMmap content := by
  have hsplit : fgetsSplit content = splitLinesMmap content :=
    fgetsSplitGo_eq_mmap content [] (by simp [BUFSIZE]) hshort
  rw [fgetsChunks, hsplit]
  have : ∀ l ∈ splitLinesMmap content, l.takeWhile (fun b => b != 0) = l := by
    intro l hl
    refine takeWhile_ne_zero_eq l ?_
    intro b hb hb0
    apply hz
    have : b ∈ (splitLinesMmap content).flatten := by
      exact List.mem_flatten.mpr ⟨l, hl, hb⟩
    rw [splitLinesMmap, splitLinesMmapGo_flatten] at this
    simpa [hb0] using this
  calc (splitLinesMmap content).map (fun c => c.takeWhile (fun b => b != 0))
      = (splitLinesMmap content).map id := List.map_congr_left this
    _ = splitLinesMmap content := List.map_id _

theorem process_text_go_bc_irrel (opts : Options) (h : opts.flag_squeeze = false)
    (chunks : List (List Nat)) :
    ∀ n bc bc', process_text_go opts n bc chunks = process_text_go opts n bc' chunks := by
  induction chunks with
  | nil => intro n bc bc'; rfl
  | cons c cs ih =>
    intro n bc bc'
    simp only [process_text_go, h, Bool.false_eq_true, false_and, if_false]
    rw [ih _ bc bc']

theorem process_text_go_eq_mmap_go (opts : Options) (chunks : List (List Nat)) :
    ∀ n bc, process_text_go opts n bc chunks = process_mmap_go opts n bc chunks := by
  induction chunks with
  | nil => intro n bc; rfl
  | cons c cs ih =>
    intro n bc
    by_cases hs : opts.flag_squeeze = true
    · by_cases hbl : isBlankLine c = true
      · by_cases hlim : opts.squeeze_limit < bc + 1
        · simp only [process_text_go, process_mmap_go, hs, hbl, hlim]
          simp [ih]
        · simp only [process_text_go, process_mmap_go, hs, hbl, hlim]
          simp [hlim, ih]
      · simp only [process_text_go, process_mmap_go, hs, hbl]
        simp [hbl, ih]
    · have hs' : opts.flag_squeeze = false := by simpa using hs
      simp only [process_text_go, process_mmap_go, hs', Bool.false_eq_true,
        false_and, if_false]
      rw [process_text_go_bc_irrel opts hs' cs _ bc 0, ih]

theorem process_text_go_eq_follow_go (opts : Options) (h : opts.flag_squeeze = false)
    (chunks : List (List Nat)) :
    ∀ n bc, process_text_go opts n bc chunks = process_follow_go opts n chunks := by
  induction chunks with
  | nil => intro n bc; rfl
  | cons c cs ih =>
    intro n bc
    simp only [process_text_go, process_follow_go, h, Bool.false_eq_true,
      false_and, if_false]
    rw [ih]

theorem process_text_go_factor (opts : Options) (chunks : List (List Nat)) :
    ∀ n bc, process_text_go opts n bc chunks =
      transformLines opts n (squeezeStream opts.flag_squeeze opts.squeeze_limit bc chunks) := by
  induction chunks with
  | nil => intro n bc; rfl
  | cons c cs ih =>
    intro n bc
    by_cases hskip : opts.flag_squeeze = true ∧ isBlankLine c = true ∧
        opts.squeeze_limit < bc + 1
    · simp only [process_text_go, squeezeStream, if_pos hskip]
      exact ih n (bc + 1)
    · simp only [process_text_go, squeezeStream, if_neg hskip, transformLines]
      rw [ih]

theorem squeezeStream_run_bound (limit k : Nat) (hk : limit ≤ k)
    (chunks : List (List Nat)) :
    ∀ bc cur, cur ≤ bc →
      blankRunsBounded k cur (squeezeStream true limit bc chunks) = true := by
  induction chunks with
  | nil => intro bc cur _; rfl
  | cons c cs ih =>
    intro bc cur hcb
    by_cases hbl : isBlankLine c = true
    · by_cases hlim : limit < bc + 1
      · simp only [squeezeStream, hbl, hlim, and_true, true_and, if_true]
        exact ih (bc + 1) cur (by omega)
      · simp only [squeezeStream, blankRunsBounded, hbl, hlim, and_true, true_and,
          and_false, if_false, if_true, Bool.and_eq_true, decide_eq_true_eq]
        exact ⟨by omega, ih (bc + 1) (cur + 1) (by omega)⟩
    · simp only [squeezeStream, blankRunsBounded, hbl, Bool.false_eq_true,
        false_and, and_false, true_and, if_false, if_true]
      exact ih 0 0 (le_refl 0)

theorem squeezeStream_reset (limit bc : Nat) (l : List Nat) (ls : List (List Nat))
    (h : isBlankLine l = false) :
    squeezeStream true limit bc (l :: ls) = l :: squeezeStream true limit 0 ls := by
  simp [squeezeStream, h]

theorem renderByte_agree (opts₁ opts₂ : Options)
    (htabs : opts₁.flag_tabs = opts₂.flag_tabs)
    (hnp : opts₁.flag_nonprinting = opts₂.flag_nonprinting)
    (hends : opts₁.flag_ends = opts₂.flag_ends)
    (htr : opts₁.tab_repr = opts₂.tab_repr)
    (hem : opts₁.end_marker = opts₂.end_marker) :
    renderByte opts₁ = renderByte opts₂ := by
  funext c
  unfold renderByte
  simp only [htabs, hnp, hends, htr, hem]

theorem process_line_buffer_structure (line : List Nat) (opts : Options) (n : Nat) :
    process_line_buffer line opts n =
      ((if (opts.flag_num || (opts.flag_nnb && !isBlankLine line)) = true
          then formatLineNo n else []) ++
        (process_line_buffer line
          { opts with flag_num := false, flag_nnb := false } n).1,
       if (opts.flag_num || (opts.flag_nnb && !isBlankLine line)) = true
          then n + 1 else n) := by
  have hrb : renderByte { opts with flag_num := false, flag_nnb := false } =
      renderByte opts := renderByte_agree _ _ rfl rfl rfl rfl rfl
  simp [process_line_buffer, hrb]

theorem process_line_buffer_agree (line : List Nat) (n : Nat) (opts₁ opts₂ : Options)
    (hnum₁ : opts₁.flag_num = true) (hnum₂ : opts₂.flag_num = true)
    (htabs : opts₁.flag_tabs = opts₂.flag_tabs)
    (hnp : opts₁.flag_nonprinting = opts₂.flag_nonprinting)
    (hends : opts₁.flag_ends = opts₂.flag_ends)
    (htr : opts₁.tab_repr = opts₂.tab_repr)
    (hem : opts₁.end_marker = opts₂.end_marker) :
    process_line_buffer line opts₁ n = process_line_buffer line opts₂ n := by
  have hrb : renderByte opts₁ = renderByte opts₂ :=
    renderByte_agree opts₁ opts₂ htabs hnp hends htr hem
  simp only [process_line_buffer, hnum₁, hnum₂, htabs, hnp, hends, hrb, Bool.true_or]

theorem process_text_go_agree (opts₁ opts₂ : Options)
    (hnum₁ : opts₁.flag_num = true) (hnum₂ : opts₂.flag_num = true)
    (hsq : opts₁.flag_squeeze = opts₂.flag_squeeze)
    (hlim : opts₁.squeeze_limit = opts₂.squeeze_limit)
    (htabs : opts₁.flag_tabs = opts₂.flag_tabs)
    (hnp : opts₁.flag_nonprinting = opts₂.flag_nonprinting)
    (hends : opts₁.flag_ends = opts₂.flag_ends)
    (htr : opts₁.tab_repr = opts₂.tab_repr)
    (hem : opts₁.end_marker = opts₂.end_marker)
    (chunks : List (List Nat)) :
    ∀ n bc, process_text_go opts₁ n bc chunks = process_text_go opts₂ n bc chunks := by
  induction chunks with
  | nil => intro n bc; rfl
  | cons c cs ih =>
    intro n bc
    have hplb := process_line_buffer_agree c n opts₁ opts₂ hnum₁ hnum₂ htabs hnp hends htr hem
    simp only [process_text_go, hsq, hlim, hplb, ih]

theorem process_mmap_go_agree (opts₁ opts₂ : Options)
    (hnum₁ : opts₁.flag_num = true) (hnum₂ : opts₂.flag_num = true)
    (hsq : opts₁.flag_squeeze = opts₂.flag_squeeze)
    (hlim : opts₁.squeeze_limit = opts₂.squeeze_limit)
    (htabs : opts₁.flag_tabs = opts₂.flag_tabs)
    (hnp : opts₁.flag_nonprinting = opts₂.flag_nonprinting)
    (hends : opts₁.flag_ends = opts₂.flag_ends)
    (htr : opts₁.tab_repr = opts₂.tab_repr)
    (hem : opts₁.end_marker = opts₂.end_marker)
    (chunks : List (List Nat)) :
    ∀ n bc, process_mmap_go opts₁ n bc chunks = process_mmap_go opts₂ n bc chunks := by
  induction chunks with
  | nil => intro n bc; rfl
  | cons c cs ih =>
    intro n bc
    have hplb := process_line_buffer_agree c n opts₁ opts₂ hnum₁ hnum₂ htabs hnp hends htr hem
    simp only [process_mmap_go, hsq, hlim, hplb, ih]

theorem processOneFile_agree (env : String → Option (List Nat)) (opts₁ opts₂ : Options)
    (hnum₁ : opts₁.flag_num = true) (hnum₂ : opts₂.flag_num = true)
    (hsq : opts₁.flag_squeeze = opts₂.flag_squeeze)
    (hlim : opts₁.squeeze_limit = opts₂.squeeze_limit)
    (htabs : opts₁.flag_tabs = opts₂.flag_tabs)
    (hnp : opts₁.flag_nonprinting = opts₂.flag_nonprinting)
    (hends : opts₁.flag_ends = opts₂.flag_ends)
    (hfol : opts₁.flag_follow = opts₂.flag_follow)
    (htr : opts₁.tab_repr = opts₂.tab_repr)
    (hem : opts₁.end_marker = opts₂.end_marker)
    (fname : String) (n : Nat) :
    processOneFile env opts₁ fname n = processOneFile env opts₂ fname n := by
  have hcr : chooseReader env opts₁ fname = chooseReader env opts₂ fname := by
    simp only [chooseReader, hfol]
  have hut₁ : use_text opts₁ = true := by simp [use_text, hnum₁]
  have hut₂ : use_text opts₂ = true := by simp [use_text, hnum₂]
  simp only [processOneFile, hcr]
  cases chooseReader env opts₂ fname with
  | followReader => rfl
  | mappedReader =>
    cases env fname with
    | none => rfl
    | some c =>
      simp only [hut₁, hut₂, process_file_mmap]
      rw [process_mmap_go_agree opts₁ opts₂ hnum₁ hnum₂ hsq hlim htabs hnp hends htr hem]
  | streamReader =>
    cases env fname with
    | none => rfl
    | some c =>
      simp only [hut₁, hut₂, if_true, process_text]
      rw [process_text_go_agree opts₁ opts₂ hnum₁ hnum₂ hsq hlim htabs hnp hends htr hem]

theorem processFiles_agree (env : String → Option (List Nat)) (opts₁ opts₂ : Options)
    (hnum₁ : opts₁.flag_num = true) (hnum₂ : opts₂.flag_num = true)
    (hsq : opts₁.flag_squeeze = opts₂.flag_squeeze)
    (hlim : opts₁.squeeze_limit = opts₂.squeeze_limit)
    (htabs : opts₁.flag_tabs = opts₂.flag_tabs)
    (hnp : opts₁.flag_nonprinting = opts₂.flag_nonprinting)
    (hends : opts₁.flag_ends = opts₂.flag_ends)
    (hfol : opts₁.flag_follow = opts₂.flag_follow)
    (htr : opts₁.tab_repr = opts₂.tab_repr)
    (hem : opts₁.end_marker = opts₂.end_marker)
    (files : List String) :
    ∀ n, processFiles env opts₁ files n = processFiles env opts₂ files n := by
  induction files with
  | nil => intro n; rfl
  | cons f fs ih =>
    intro n
    have h1 := processOneFile_agree env opts₁ opts₂ hnum₁ hnum₂ hsq hlim htabs hnp
      hends hfol htr hem f n
    simp only [processFiles, h1, ih]

theorem processOneFile_identity (env : String → Option (List Nat)) (opts : Options)
    (h1 : opts.flag_num = false) (h2 : opts.flag_nnb = false)
    (h3 : opts.flag_squeeze = false) (h4 : opts.flag_ends = false)
    (h5 : opts.flag_tabs = false) (h6 : opts.flag_nonprinting = false)
    (h7 : opts.flag_follow = false)
    (fname : String) (c : List Nat) (hc : env fname = some c) (n : Nat) :
    processOneFile env opts fname n = (c, [], n) := by
  have hut : use_text opts = false := by simp [use_text, h1, h2, h3, h4, h5, h6]
  simp only [processOneFile]
  cases hr : chooseReader env opts fname with
  | followReader =>
    exfalso
    unfold chooseReader at hr
    rw [if_neg (by simp [h7])] at hr
    by_cases hm : fname ≠ "-" ∧ get_file_size env fname ≥ MMAP_THRESHOLD
    · rw [if_pos hm] at hr; exact Reader.noConfusion hr
    · rw [if_neg hm] at hr; exact Reader.noConfusion hr
  | mappedReader =>
    simp only [hc, hut, process_file_mmap]
    by_cases hce : c = [] <;> simp [hce]
  | streamReader =>
    simp [hc, hut, process_binary_eq]

theorem processFiles_identity (env : String → Option (List Nat)) (opts : Options)
    (h1 : opts.flag_num = false) (h2 : opts.flag_nnb = false)
    (h3 : opts.flag_squeeze = false) (h4 : opts.flag_ends = false)
    (h5 : opts.flag_tabs = false) (h6 : opts.flag_nonprinting = false)
    (h7 : opts.flag_follow = false)
    (files : List String)
    (hsome : files.all (fun f => (env f).isSome) = true) :
    ∀ n, processFiles env opts files n =
      ((files.map (fun f => (env f).getD [])).flatten, [], n) := by
  induction files with
  | nil => intro n; rfl
  | cons f fs ih =>
    intro n
    simp only [List.all_cons, Bool.and_eq_true] at hsome
    obtain ⟨c, hc⟩ := Option.isSome_iff_exists.mp hsome.1
    have hone := processOneFile_identity env opts h1 h2 h3 h4 h5 h6 h7 f c hc n
    simp only [processFiles, hone, ih hsome.2 n, List.map_cons, List.flatten_cons, hc,
      Option.getD_some, List.nil_append]

theorem stream_eq_mmap (content : List Nat) (opts : Options) (n : Nat)
    (hz : content.all (fun b => b != 0) = true)
    (hshort : (splitLinesMmap content).all (fun l => l.length < BUFSIZE) = true) :
    process_text content opts n = process_file_mmap content true opts n := by
  have hz' : (0 : Nat) ∉ content := by
    intro hmem
    have := (List.all_eq_true.mp hz) 0 hmem
    simp at this
  have hshort' : ∀ l ∈ splitLinesMmap content, l.length < BUFSIZE := by
    intro l hl
    have := (List.all_eq_true.mp hshort) l hl
    simpa using this
  by_cases hc : content = []
  · subst hc; rfl
  · rw [process_text, fgetsChunks_eq_splitLinesMmap content hz' hshort',
      process_text_go_eq_mmap_go, process_file_mmap, if_neg hc,
      if_neg (by simp : ¬(true = false))]

theorem follow_eq_stream (content : List Nat) (opts : Options) (n : Nat)
    (hs : opts.flag_squeeze = false) :
    process_follow_text content opts n = process_text content opts n := by
  rw [process_follow_text, process_text, process_text_go_eq_follow_go opts hs]

/-! ## Claims -/

/-- Claim C1 is false on the code: with squeeze-blank active and squeeze
limit 1 (the default, no other flags), four blank lines followed by the
nonblank line `"a\n"` yield ONE blank line then the nonblank line (bytes
`[10, 97, 10]`), not the two blank lines the claim states
(`[10, 10, 97, 10]`).  The code drops a blank line as soon as
`++blank_count > squeeze_limit`, so at most `squeeze_limit` consecutive
blank lines are ever emitted. -/
theorem c1_counterexample :
    (process_text [10, 10, 10, 10, 97, 10]
        { global_defaults with flag_squeeze := true } 1).1 = [10, 97, 10] ∧
    ([10, 97, 10] : List Nat) ≠ [10, 10, 97, 10] := by
  exact ⟨rfl, by decide⟩

/-- Claim C1 amended: for an input of four consecutive blank lines
followed by one nonblank line, processed with squeeze-blank active and
squeeze limit 1 (and no other flags), the output is exactly ONE blank
line followed by the nonblank line — and the stream and mapped readers
agree on this. -/
theorem c1_squeeze_limit1 :
    process_text [10, 10, 10, 10, 97, 10]
        { global_defaults with flag_squeeze := true } 1 = ([10, 97, 10], 1) ∧
    process_file_mmap [10, 10, 10, 10, 97, 10] true
        { global_defaults with flag_squeeze := true } 1 = ([10, 97, 10], 1) := by
  exact ⟨rfl, rfl⟩

/-- Claim C2: with squeeze-blank active and squeeze limit L ≥ 1, the
lines a file's processing emits never contain more than L + 1 consecutive
blank lines (the code in fact guarantees at most L); the blank-run
counter is reset to zero on any nonblank line; the squeeze filter
`squeezeStream` is exactly the subsequence of chunks `process_text` hands
to the transformer, started from a fresh counter; and across files only
the line counter is threaded, so the blank-run state is per-file. -/
theorem c2_blank_run_invariant (limit : Nat) (lines ls : List (List Nat))
    (l : List Nat) (bc : Nat) (opts : Options)
    (env : String → Option (List Nat)) (f : String) (fs : List String) (n : Nat)
    (hlim : 1 ≤ limit) :
    blankRunsBounded (limit + 1) 0 (squeezeStream true limit 0 lines) = true ∧
    (isBlankLine l = false →
      squeezeStream true limit bc (l :: ls) = l :: squeezeStream true limit 0 ls) ∧
    process_text_go opts n bc lines =
      transformLines opts n
        (squeezeStream opts.flag_squeeze opts.squeeze_limit bc lines) ∧
    processFiles env opts (f :: fs) n =
      ((processOneFile env opts f n).1 ++
         (processFiles env opts fs (processOneFile env opts f n).2.2).1,
       (processOneFile env opts f n).2.1 ++
         (processFiles env opts fs (processOneFile env opts f n).2.2).2.1,
       (processFiles env opts fs (processOneFile env opts f n).2.2).2.2) := by
  refine ⟨?_, ?_, ?_, rfl⟩
  · exact squeezeStream_run_bound limit (limit + 1) (by omega) lines 0 0 (le_refl 0)
  · exact fun h => squeezeStream_reset limit bc l ls h
  · exact process_text_go_factor opts lines n bc

/-- Witness for C2 at limit 1. -/
theorem c2_blank_run_invariant_witness :
    (1 : Nat) ≤ 1 ∧ isBlankLine [97, 10] = false ∧
    blankRunsBounded 2 0 (squeezeStream true 1 0 [[10], [10], [10]]) = true ∧
    squeezeStream true 1 5 [[97, 10], [10]] =
      [97, 10] :: squeezeStream true 1 0 [[10]] := by
  refine ⟨by decide, by decide, ?_, ?_⟩
  · exact (c2_blank_run_invariant 1 [[10], [10], [10]] [[10]] [97, 10] 5
      global_defaults (fun _ => none) "a" [] 1 (by decide)).1
  · exact (c2_blank_run_invariant 1 [[10], [10], [10]] [[10]] [97, 10] 5
      global_defaults (fun _ => none) "a" [] 1 (by decide)).2.1 (by decide)

/-- Claim C3: a line number — decimal, right-justified to width 6,
followed by a tab — is emitted before the line content and the counter
incremented exactly when number-all is set, or number-nonblank is set and
the line is not blank (blank = exactly one newline byte); a blank line
under number-nonblank alone is emitted unnumbered with the counter
unchanged; and the counter is threaded across file boundaries, never
reset between files. -/
theorem c3_numbering (opts : Options) (line : List Nat) (n : Nat)
    (env : String → Option (List Nat)) (f : String) (fs : List String) :
    process_line_buffer line opts n =
      ((if (opts.flag_num || (opts.flag_nnb && !isBlankLine line)) = true
          then formatLineNo n else []) ++
        (process_line_buffer line
          { opts with flag_num := false, flag_nnb := false } n).1,
       if (opts.flag_num || (opts.flag_nnb && !isBlankLine line)) = true
          then n + 1 else n) ∧
    formatLineNo n =
      List.replicate (6 - (decimalDigits n).length) 32 ++ decimalDigits n ++ [9] ∧
    digitsVal (decimalDigits n) = n ∧
    (opts.flag_num = false → opts.flag_nnb = true → isBlankLine line = true →
      process_line_buffer line opts n =
        ((process_line_buffer line
            { opts with flag_num := false, flag_nnb := false } n).1, n)) ∧
    processFiles env opts (f :: fs) n =
      ((processOneFile env opts f n).1 ++
         (processFiles env opts fs (processOneFile env opts f n).2.2).1,
       (processOneFile env opts f n).2.1 ++
         (processFiles env opts fs (processOneFile env opts f n).2.2).2.1,
       (processFiles env opts fs (processOneFile env opts f n).2.2).2.2) := by
  refine ⟨process_line_buffer_structure line opts n, rfl, digitsVal_decimalDigits n,
    ?_, rfl⟩
  intro h1 h2 h3
  rw [process_line_buffer_structure]
  simp [h1, h2, h3]

/-- Witness for C3: a blank line under number-nonblank alone is emitted
unnumbered with the counter unchanged. -/
theorem c3_numbering_witness :
    ({ global_defaults with flag_nnb := true } : Options).flag_num = false ∧
    ({ global_defaults with flag_nnb := true } : Options).flag_nnb = true ∧
    isBlankLine [10] = true ∧
    digitsVal (decimalDigits 5) = 5 ∧
    process_line_buffer [10] { global_defaults with flag_nnb := true } 5 =
      ((process_line_buffer [10]
          { ({ global_defaults with flag_nnb := true } : Options) with
            flag_num := false, flag_nnb := false } 5).1, 5) := by
  have h := c3_numbering { global_defaults with flag_nnb := true } [10] 5
    (fun _ => none) "-" []
  exact ⟨by decide, by decide, by decide, h.2.2.1,
    h.2.2.2.1 (by decide) (by decide) (by decide)⟩

/-- Claim C4: when at least one of show-tabs, show-end-marker,
show-nonprinting is set, every line goes through the per-byte slow path,
and each byte is rendered by the first matching rule in the fixed order
tab-check, newline-check, nonprinting-check, literal: a TAB with
show-tabs becomes the tab-replacement string (default `^I` = bytes
94 73); a newline is preceded by the end marker (default `$` = byte 36)
when show-end-marker is set and the newline byte itself is always
emitted; a control byte (< 32) or DEL (127) with show-nonprinting
becomes `^?` (bytes 94 63) for DEL and otherwise `^` then byte + 64; any
other byte is emitted literally. -/
theorem c4_render_rules (opts : Options) (line : List Nat) (n : Nat) (c : Nat)
    (hslow : (opts.flag_tabs || opts.flag_ends || opts.flag_nonprinting) = true) :
    (process_line_buffer line opts n).1 =
      (if (opts.flag_num || (opts.flag_nnb && !isBlankLine line)) = true
          then formatLineNo n else []) ++ (line.map (renderByte opts)).flatten ∧
    (c = 9 → opts.flag_tabs = true → renderByte opts c = opts.tab_repr) ∧
    (c = 10 → renderByte opts c =
      (if opts.flag_ends = true then opts.end_marker else []) ++ [10]) ∧
    (¬(c = 9 ∧ opts.flag_tabs = true) → c ≠ 10 → opts.flag_nonprinting = true →
      (c < 32 ∨ c = 127) →
      renderByte opts c = if c = 127 then [94, 63] else [94, c + 64]) ∧
    (¬(c = 9 ∧ opts.flag_tabs = true) → c ≠ 10 →
      ¬(opts.flag_nonprinting = true ∧ (c < 32 ∨ c = 127)) →
      renderByte opts c = [c]) ∧
    global_defaults.tab_repr = [94, 73] ∧ global_defaults.end_marker = [36] := by
  have hfast : (!opts.flag_tabs && !opts.flag_nonprinting && !opts.flag_ends) = false := by
    revert hslow
    cases opts.flag_tabs <;> cases opts.flag_ends <;> cases opts.flag_nonprinting <;> simp
  refine ⟨?_, ?_, ?_, ?_, ?_, rfl, rfl⟩
  · simp [process_line_buffer, hfast]
  · intro hc ht; subst hc; simp [renderByte, ht]
  · intro hc; subst hc; simp [renderByte]
  · intro hnt hnl hnp hctl
    unfold renderByte
    rw [if_neg hnt, if_neg hnl, if_pos ⟨hnp, hctl⟩]
  · intro hnt hnl hno
    unfold renderByte
    rw [if_neg hnt, if_neg hnl, if_neg hno]

/-- Witness for C4 with all of `-v -T -e` set, exercising each rendering
rule at bytes 9, 10, 1, 127 and 97. -/
theorem c4_render_rules_witness :
    (optsA.flag_tabs || optsA.flag_ends || optsA.flag_nonprinting) = true ∧
    (process_line_buffer [97, 9, 10] optsA 1).1 =
      (([97, 9, 10] : List Nat).map (renderByte optsA)).flatten ∧
    renderByte optsA 9 = [94, 73] ∧
    renderByte optsA 10 = [36, 10] ∧
    renderByte optsA 1 = [94, 65] ∧
    renderByte optsA 127 = [94, 63] ∧
    renderByte optsA 97 = [97] := by
  have h9 := c4_render_rules optsA [97, 9, 10] 1 9 (by decide)
  have h10 := c4_render_rules optsA [97, 9, 10] 1 10 (by decide)
  have h1b := c4_render_rules optsA [97, 9, 10] 1 1 (by decide)
  have h127 := c4_render_rules optsA [97, 9, 10] 1 127 (by decide)
  have h97 := c4_render_rules optsA [97, 9, 10] 1 97 (by decide)
  refine ⟨by decide, ?_, ?_, ?_, ?_, ?_, ?_⟩
  · have := h9.1
    simpa using this
  · have := h9.2.1 rfl (by decide)
    simpa using this
  · have := h10.2.2.1 rfl
    simpa using this
  · have := h1b.2.2.2.1 (by decide) (by decide) (by decide) (by decide)
    simpa using this
  · have := h127.2.2.2.1 (by decide) (by decide) (by decide) (by decide)
    simpa using this
  · exact h97.2.2.2.2.1 (by decide) (by decide) (by decide)

/-- Claim C5: when none of the seven transform/numbering/squeeze/follow
flags is set, the bytes written to standard output are exactly the input
files' bytes, concatenated in argument order. -/
theorem c5_identity (opts : Options) (env : String → Option (List Nat))
    (files : List String) (n : Nat)
    (h1 : opts.flag_num = false) (h2 : opts.flag_nnb = false)
    (h3 : opts.flag_squeeze = false) (h4 : opts.flag_ends = false)
    (h5 : opts.flag_tabs = false) (h6 : opts.flag_nonprinting = false)
    (h7 : opts.flag_follow = false)
    (hsome : files.all (fun f => (env f).isSome) = true) :
    (processFiles env opts files n).1 =
      (files.map (fun f => (env f).getD [])).flatten := by
  rw [processFiles_identity env opts h1 h2 h3 h4 h5 h6 h7 files hsome n]

/-- Witness for C5 on two files of 3 and 2 bytes. -/
theorem c5_identity_witness :
    global_defaults.flag_num = false ∧ global_defaults.flag_nnb = false ∧
    global_defaults.flag_squeeze = false ∧ global_defaults.flag_ends = false ∧
    global_defaults.flag_tabs = false ∧ global_defaults.flag_nonprinting = false ∧
    global_defaults.flag_follow = false ∧
    (["a", "-"].all (fun f =>
      ((fun g => if g = "a" then some [1, 2, 3] else
        if g = "-" then some [10, 20] else none) f).isSome) = true) ∧
    (processFiles (fun g => if g = "a" then some [1, 2, 3] else
        if g = "-" then some [10, 20] else none)
      global_defaults ["a", "-"] 1).1 =
      (["a", "-"].map (fun f =>
        ((fun g => if g = "a" then some [1, 2, 3] else
          if g = "-" then some [10, 20] else none) f).getD [])).flatten ∧
    (["a", "-"].map (fun f =>
      ((fun g => if g = "a" then some [1, 2, 3] else
        if g = "-" then some [10, 20] else none) f).getD [])).flatten =
      [1, 2, 3, 10, 20] := by
  refine ⟨rfl, rfl, rfl, rfl, rfl, rfl, rfl, by decide, ?_, by decide⟩
  exact c5_identity global_defaults
    (fun g => if g = "a" then some [1, 2, 3] else
      if g = "-" then some [10, 20] else none)
    ["a", "-"] 1 rfl rfl rfl rfl rfl rfl rfl (by decide)

/-- Claim C6 is false on the code: the Poll-Follow reader applies no
squeeze filtering, so with squeeze-blank active (limit 1) the content
consisting of two blank lines produces `[10]` through the stream reader
but `[10, 10]` through the follow reader — the choice of strategy IS
observable. -/
theorem c6_counterexample :
    (process_text [10, 10] { global_defaults with flag_squeeze := true } 1).1
      = [10] ∧
    (process_follow_text [10, 10]
        { global_defaults with flag_squeeze := true } 1).1 = [10, 10] ∧
    ([10] : List Nat) ≠ [10, 10] := by
  exact ⟨rfl, rfl, by decide⟩

/-- Claim C6 amended: for content without NUL bytes whose lines all fit
in the 8192-byte stream buffer, the Stream and Mapped readers produce
byte-identical output (and the same final line counter) for the same
content and options; the Poll-Follow reader matches them exactly when
squeeze-blank is inactive, because follow mode performs no squeeze
filtering (and, `fgets` being `strlen`-measured, shares the stream
reader's chunking). -/
theorem c6_reader_equivalence (content : List Nat) (opts : Options) (n : Nat)
    (hz : content.all (fun b => b != 0) = true)
    (hshort : (splitLinesMmap content).all (fun l => l.length < BUFSIZE) = true) :
    process_text content opts n = process_file_mmap content true opts n ∧
    (opts.flag_squeeze = false →
      process_follow_text content opts n = process_text content opts n) :=
  ⟨stream_eq_mmap content opts n hz hshort,
   fun hs => follow_eq_stream content opts n hs⟩

/-- Witness for C6 on the content `"a\n"` with default options. -/
theorem c6_reader_equivalence_witness :
    ([97, 10] : List Nat).all (fun b => b != 0) = true ∧
    (splitLinesMmap [97, 10]).all (fun l => l.length < BUFSIZE) = true ∧
    global_defaults.flag_squeeze = false ∧
    process_text [97, 10] global_defaults 1 =
      process_file_mmap [97, 10] true global_defaults 1 ∧
    process_follow_text [97, 10] global_defaults 1 =
      process_text [97, 10] global_defaults 1 := by
  have h := c6_reader_equivalence [97, 10] global_defaults 1 (by decide) (by decide)
  exact ⟨by decide, by decide, rfl, h.1, h.2 rfl⟩

/-- Claim C7: for every input path exactly one reader is chosen: the
Poll-Follow reader iff follow mode is on and the path is not the
standard-input sentinel `-`; otherwise the Mapped reader iff the path is
not the sentinel and its size is at least 1 MiB (1048576 bytes);
otherwise the Stream reader — and `main`'s loop applies this dispatch to
the paths in argument order. -/
theorem c7_dispatch (env : String → Option (List Nat)) (opts : Options)
    (fname : String) (n : Nat) (fs : List String) :
    (chooseReader env opts fname = .followReader ↔
      (opts.flag_follow = true ∧ fname ≠ "-")) ∧
    (chooseReader env opts fname = .mappedReader ↔
      (¬(opts.flag_follow = true ∧ fname ≠ "-") ∧ fname ≠ "-" ∧
        get_file_size env fname ≥ (1048576 : Int))) ∧
    (chooseReader env opts fname = .streamReader ↔
      (¬(opts.flag_follow = true ∧ fname ≠ "-") ∧
        ¬(fname ≠ "-" ∧ get_file_size env fname ≥ (1048576 : Int)))) ∧
    MMAP_THRESHOLD = (1048576 : Int) ∧
    processFiles env opts (fname :: fs) n =
      ((processOneFile env opts fname n).1 ++
         (processFiles env opts fs (processOneFile env opts fname n).2.2).1,
       (processOneFile env opts fname n).2.1 ++
         (processFiles env opts fs (processOneFile env opts fname n).2.2).2.1,
       (processFiles env opts fs (processOneFile env opts fname n).2.2).2.2) := by
  have hmt : MMAP_THRESHOLD = (1048576 : Int) := by decide
  refine ⟨?_, ?_, ?_, hmt, rfl⟩
  · unfold chooseReader
    by_cases hf : opts.flag_follow = true ∧ fname ≠ "-"
    · rw [if_pos hf]
      exact ⟨fun _ => hf, fun _ => rfl⟩
    · rw [if_neg hf]
      by_cases hm : fname ≠ "-" ∧ get_file_size env fname ≥ MMAP_THRESHOLD
      · rw [if_pos hm]
        exact ⟨fun hcon => Reader.noConfusion hcon, fun h => absurd h hf⟩
      · rw [if_neg hm]
        exact ⟨fun hcon => Reader.noConfusion hcon, fun h => absurd h hf⟩
  · unfold chooseReader
    rw [← hmt]
    by_cases hf : opts.flag_follow = true ∧ fname ≠ "-"
    · rw [if_pos hf]
      exact ⟨fun hcon => Reader.noConfusion hcon, fun h => absurd hf h.1⟩
    · rw [if_neg hf]
      by_cases hm : fname ≠ "-" ∧ get_file_size env fname ≥ MMAP_THRESHOLD
      · rw [if_pos hm]
        exact ⟨fun _ => ⟨hf, hm⟩, fun _ => rfl⟩
      · rw [if_neg hm]
        exact ⟨fun hcon => Reader.noConfusion hcon, fun h => absurd h.2 hm⟩
  · unfold chooseReader
    rw [← hmt]
    by_cases hf : opts.flag_follow = true ∧ fname ≠ "-"
    · rw [if_pos hf]
      exact ⟨fun hcon => Reader.noConfusion hcon, fun h => absurd hf h.1⟩
    · rw [if_neg hf]
      by_cases hm : fname ≠ "-" ∧ get_file_size env fname ≥ MMAP_THRESHOLD
      · rw [if_pos hm]
        exact ⟨fun hcon => Reader.noConfusion hcon, fun h => absurd hm h.2⟩
      · rw [if_neg hm]
        exact ⟨fun _ => ⟨hf, hm⟩, fun _ => rfl⟩

/-- Claim C8: an unknown flag or unknown long option makes the run fail
with an error message on standard error and no output (no file is
processed); a file that cannot be opened is logged to standard error and
skipped while the remaining files are still processed; and a run whose
arguments parse successfully exits with success regardless of per-file
errors. -/
theorem c8_error_policy (args : List String) (env : String → Option (List Nat))
    (tty : Bool) (msg : String) (opts : Options) (files : List String)
    (f : String) (fs : List String) (n : Nat) :
    (parse_global_flags args = .error (.exitFailure msg) →
      runMain env tty args = ([], [msg], .failure)) ∧
    (env f = none →
      processFiles env opts (f :: fs) n =
        ((processFiles env opts fs n).1, f :: (processFiles env opts fs n).2.1,
         (processFiles env opts fs n).2.2)) ∧
    (parse_global_flags args = .ok (opts, files) → ¬(files = ["-"] ∧ tty = true) →
      (runMain env tty args).2.2 = .success) := by
  refine ⟨?_, ?_, ?_⟩
  · intro h
    simp [runMain, h]
  · intro henv
    have hone : processOneFile env opts f n = ([], [f], n) := by
      cases hcr : chooseReader env opts f <;> simp [processOneFile, hcr, henv]
    simp [processFiles, hone]
  · intro hok hne
    simp [runMain, hok, hne]

/-- Witness for C8: `-x` is rejected before any processing; a missing
file `"a"` is logged and skipped with the run still exiting 0. -/
theorem c8_error_policy_witness :
    parse_global_flags ["-x"] = .error (.exitFailure "Unknown flag: -x") ∧
    runMain (fun _ => none) false ["-x"] =
      ([], ["Unknown flag: -x"], .failure) ∧
    ((fun (_ : String) => (none : Option (List Nat))) "a" = none) ∧
    processFiles (fun _ => none) global_defaults ["a"] 1 = ([], ["a"], 1) ∧
    parse_global_flags ["a"] = .ok (global_defaults, ["a"]) ∧
    (runMain (fun _ => none) false ["a"]).2.2 = .success := by
  have h1 := c8_error_policy ["-x"] (fun _ => none) false "Unknown flag: -x"
    global_defaults ["a"] "a" [] 1
  have h2 := c8_error_policy ["a"] (fun _ => none) false "Unknown flag: -x"
    global_defaults ["a"] "a" [] 1
  refine ⟨rfl, h1.1 rfl, rfl, ?_, rfl, h2.2.2 rfl (by decide)⟩
  have := h2.2.1 rfl
  simpa using this

/-- Claim C9: with show-nonprinting set and show-tabs not set, a TAB byte
(9) is not passed through literally: the tab rule does not match, so it
falls to the generic control-byte rule and is emitted in caret notation
as `^I` — byte 94 followed by 9 + 64 = 73, the letter `I`. -/
theorem c9_tab_caret (opts : Options)
    (hv : opts.flag_nonprinting = true) (ht : opts.flag_tabs = false) :
    renderByte opts 9 = [94, 73] ∧ (73 : Nat) = 9 + 64 ∧
    renderByte opts 9 ≠ [9] := by
  have h : renderByte opts 9 = [94, 73] := by
    unfold renderByte
    rw [if_neg (by simp [ht]), if_neg (by decide), if_pos ⟨hv, Or.inl (by decide)⟩,
      if_neg (by decide)]
  exact ⟨h, rfl, by rw [h]; decide⟩

/-- Witness for C9 with `-v` alone. -/
theorem c9_tab_caret_witness :
    ({ global_defaults with flag_nonprinting := true } : Options).flag_nonprinting
      = true ∧
    ({ global_defaults with flag_nonprinting := true } : Options).flag_tabs
      = false ∧
    renderByte { global_defaults with flag_nonprinting := true } 9 = [94, 73] ∧
    renderByte { global_defaults with flag_nonprinting := true } 9 ≠ [9] := by
  have h := c9_tab_caret { global_defaults with flag_nonprinting := true } rfl rfl
  exact ⟨rfl, rfl, h.1, h.2.2⟩

/-- Claim C10: when number-all is set, the output (and the stderr log and
the final line counter) is identical whether number-nonblank is set or
not — number-all absorbs number-nonblank, every line including blank
ones being numbered. -/
theorem c10_nnb_absorbed (opts : Options) (env : String → Option (List Nat))
    (files : List String) (n : Nat) (hnum : opts.flag_num = true) :
    processFiles env { opts with flag_nnb := true } files n =
      processFiles env { opts with flag_nnb := false } files n := by
  exact processFiles_agree env { opts with flag_nnb := true }
    { opts with flag_nnb := false } hnum hnum rfl rfl rfl rfl rfl rfl rfl rfl files n

/-- Witness for C10 on a one-file run containing a blank line. -/
theorem c10_nnb_absorbed_witness :
    ({ global_defaults with flag_num := true } : Options).flag_num = true ∧
    processFiles (fun _ => some [97, 10, 10, 98, 10])
        { ({ global_defaults with flag_num := true } : Options) with
          flag_nnb := true } ["x"] 1 =
      processFiles (fun _ => some [97, 10, 10, 98, 10])
        { ({ global_defaults with flag_num := true } : Options) with
          flag_nnb := false } ["x"] 1 := by
  exact ⟨rfl, c10_nnb_absorbed { global_defaults with flag_num := true }
    (fun _ => some [97, 10, 10, 98, 10]) ["x"] 1 rfl⟩

end CC
